import Mathlib

/-!
Verification development for the `backplane-tools` CLI tool manager.

The definitions below are a shallow embedding of the program's data model and
operations:

* pure string helpers from `pkg/utils/utils.go` (substring containment,
  architecture/OS alias tables, whitespace splitting, the checksum-line lookup);
* the GitHub asset matchers from `pkg/sources/github` (`FindAssetsForArch`,
  `FindAssetsForOS`, `FindAssetsForArchAndOS`, `FindAssetsContaining`,
  `FindAssetsExcluding`);
* the per-tool `Install` state machines of `pkg/tools/rosa` and
  `pkg/tools/ocm`, with the external effects (network fetch, directory
  creation, asset download, file reads, symlinking) supplied by an explicit
  environment record and the filesystem as explicit state;
* `Default.Remove` and `Default.InstalledVersion` from `pkg/tools/base` and the
  batch loop of `pkg/tools/tools.go`.

Strings are modelled as Lean `String`s; character-level operations work on the
underlying `List Char`.  Go's `strings.ToLower`, `strings.TrimSpace`,
`strings.Fields` and `unicode.IsSpace` are modelled on the ASCII fragment,
which covers every asset name, digest and path the program manipulates.
-/

namespace BackplaneTools

/-- ASCII lowercasing of one character (the ASCII fragment of Go's
`unicode.ToLower`). -/
def lowerChar (c : Char) : Char :=
  if 'A' ≤ c ∧ c ≤ 'Z' then Char.ofNat (c.toNat + 32) else c

/-- Models Go `strings.ToLower` on ASCII strings. -/
def toLowerAscii (s : String) : String :=
  ⟨s.data.map lowerChar⟩

/-- Returns true when `needle` occurs at the start of `hay`. -/
def isPrefixL : List Char → List Char → Bool
  | [], _ => true
  | _ :: _, [] => false
  | a :: at_, b :: bt => a == b && isPrefixL at_ bt

/-- Returns true when `needle` occurs contiguously in `hay`; models Go
`strings.Contains` (which is true for an empty needle). -/
def isSubstrL (needle : List Char) : List Char → Bool
  | [] => needle.isEmpty
  | c :: cs => isPrefixL needle (c :: cs) || isSubstrL needle cs

/-- Models Go `strings.Contains s sub`. -/
def goContains (s sub : String) : Bool :=
  isSubstrL sub.data s.data

/-- Embeds `utils.ContainsAll`: all search terms are substrings of `str`. -/
def containsAll (str : String) (terms : List String) : Bool :=
  terms.all (fun t => goContains str t)

/-- Embeds `utils.ContainsAny`: some search term is a substring of `str`. -/
def containsAny (str : String) (terms : List String) : Bool :=
  terms.any (fun t => goContains str t)

/-- Embeds `utils.GetArchAliases`, parameterised by the value of
`runtime.GOARCH`. -/
def getArchAliases (goarch : String) : List String :=
  if goarch = "amd64" then ["amd64", "x86_64"] else [goarch]

/-- Embeds `utils.GetOSAliases`, parameterised by the value of
`runtime.GOOS`. -/
def getOSAliases (goos : String) : List String :=
  if goos = "darwin" then ["darwin", "mac"] else [goos]

/-- Embeds `github.FindAssetsForOS`: keep assets whose lowercased name
contains an OS alias.  Assets are identified by their names. -/
def findAssetsForOS (goos : String) (assets : List String) : List String :=
  assets.filter (fun a => containsAny (toLowerAscii a) (getOSAliases goos))

/-- Embeds `github.FindAssetsForArch`: keep assets whose lowercased name
contains an architecture alias. -/
def findAssetsForArch (goarch : String) (assets : List String) : List String :=
  assets.filter (fun a => containsAny (toLowerAscii a) (getArchAliases goarch))

/-- Embeds `github.FindAssetsForArchAndOS`: the OS filter applied to the
output of the architecture filter. -/
def findAssetsForArchAndOS (goarch goos : String) (assets : List String) : List String :=
  findAssetsForOS goos (findAssetsForArch goarch assets)

/-- Embeds `github.FindAssetsContaining`: keep assets whose name contains all
terms. -/
def findAssetsContaining (terms : List String) (assets : List String) : List String :=
  assets.filter (fun a => containsAll a terms)

/-- Embeds `github.FindAssetsExcluding`: keep assets whose name contains no
term. -/
def findAssetsExcluding (terms : List String) (assets : List String) : List String :=
  assets.filter (fun a => !containsAny a terms)

/-- Claim C8: the architecture filter keeps exactly the assets whose lowercased name
contains the canonical architecture name or a registered alias (`amd64`
matching `x86_64` and vice versa, other architectures matching only their
canonical name), the OS filter does the same with `darwin` matching `mac`, and
the combined matcher is the composition of the OS filter with the architecture
filter (AND semantics). -/
theorem c8_arch_os_filters :
    (∀ goarch goos assets a, a ∈ findAssetsForArchAndOS goarch goos assets ↔
      a ∈ assets ∧ containsAny (toLowerAscii a) (getArchAliases goarch) = true ∧
        containsAny (toLowerAscii a) (getOSAliases goos) = true) ∧
    (∀ goarch goos assets,
      findAssetsForArchAndOS goarch goos assets
        = findAssetsForOS goos (findAssetsForArch goarch assets)) ∧
    getArchAliases "amd64" = ["amd64", "x86_64"] ∧
    (∀ goarch, goarch ≠ "amd64" → getArchAliases goarch = [goarch]) ∧
    getOSAliases "darwin" = ["darwin", "mac"] ∧
    (∀ goos, goos ≠ "darwin" → getOSAliases goos = [goos]) ∧
    findAssetsForArch "amd64" ["tool-x86_64"] = ["tool-x86_64"] ∧
    findAssetsForArch "amd64" ["tool-amd64"] = ["tool-amd64"] ∧
    findAssetsForOS "darwin" ["tool-mac"] = ["tool-mac"] := by
  refine ⟨?_, ?_, rfl, ?_, rfl, ?_, by decide, by decide, by decide⟩
  · intro goarch goos assets a
    simp only [findAssetsForArchAndOS, findAssetsForOS, findAssetsForArch,
      List.mem_filter, and_assoc]
  · intro goarch goos assets
    rfl
  · intro goarch h
    simp [getArchAliases, h]
  · intro goos h
    simp [getOSAliases, h]

/-- Witness for `c8_arch_os_filters`: the alias-table clauses applied to a
concrete non-aliased architecture and OS. -/
theorem c8_arch_os_filters_witness :
    getArchAliases "arm64" = ["arm64"] ∧ getOSAliases "linux" = ["linux"] :=
  ⟨c8_arch_os_filters.2.2.2.1 "arm64" (by decide),
   c8_arch_os_filters.2.2.2.2.2.1 "linux" (by decide)⟩

/-- Recognises RE2's `\s` character class (space, tab, newline, form feed,
carriage return). -/
def isSpaceRE2 (c : Char) : Bool :=
  c == ' ' || c == '\t' || c == '\n' || c == Char.ofNat 12 || c == '\r'

/-- Recognises the ASCII fragment of Go's `unicode.IsSpace` (space, tab,
newline, vertical tab, form feed, carriage return), used by
`strings.TrimSpace` and `strings.Fields`. -/
def isSpaceGo (c : Char) : Bool :=
  c == ' ' || c == '\t' || c == '\n' || c == Char.ofNat 11 || c == Char.ofNat 12 || c == '\r'

/-- Matches the key character-by-character at the head of `text`, where `'.'`
in the key is a regex wildcard matching any character: the key is interpolated
unescaped into the pattern `(^|\s)key($|\s)` by `utils.GetLineInFileMatchingKey`,
so a `'.'` in a filename behaves as RE2's any-character metacharacter.  Returns
the remaining text on success.  (Keys are assumed to contain no other RE2
metacharacter; that covers the asset filenames the program passes in.) -/
def patConsume : List Char → List Char → Option (List Char)
  | [], rest => some rest
  | _ :: _, [] => none
  | p :: ps, c :: cs => if p == '.' || p == c then patConsume ps cs else none

/-- Strips a literal occurrence of `key` from the head of `text` (claim-side
companion of `patConsume` with no wildcard). -/
def dropLit : List Char → List Char → Option (List Char)
  | [], rest => some rest
  | _ :: _, [] => none
  | p :: ps, c :: cs => if p == c then dropLit ps cs else none

/-- Checks whether the pattern `key($|\s)` matches at the head of `text`. -/
def matchHere (key text : List Char) : Bool :=
  match patConsume key text with
  | some [] => true
  | some (c :: _) => isSpaceRE2 c
  | none => false

/-- Checks whether a literal occurrence of `key` at the head of `text` is
followed by the end of the text or a whitespace character. -/
def litHere (key text : List Char) : Bool :=
  match dropLit key text with
  | some [] => true
  | some (c :: _) => isSpaceRE2 c
  | none => false

/-- Scans `text` for a position where `hm` succeeds and which is preceded by
the start of the text (`b` records whether the current position qualifies) or
a whitespace character; models RE2 matching of `(^|\s)key($|\s)` against one
line. -/
def scanWith (hm : List Char → Bool) : Bool → List Char → Bool
  | b, [] => b && hm []
  | b, c :: cs => (b && hm (c :: cs)) || scanWith hm (isSpaceRE2 c) cs

/-- Decides whether the RE2 pattern `(^|\s)key($|\s)` matches `line`: the test
applied per line by `utils.GetLineInFileMatchingKey`. -/
def lineKeyMatch (key line : String) : Bool :=
  scanWith (matchHere key.data) true line.data

/-- Decides whether `key` occurs in `line` literally as a whitespace-delimited
token (claim-side notion, executable form). -/
def containsTokenB (key line : String) : Bool :=
  scanWith (litHere key.data) true line.data

/-- Expresses that the characters before a match position are either empty
(`b` then must hold, meaning the position is the start of the line) or end in
a whitespace character. -/
def leftBoundary (b : Bool) (pre : List Char) : Prop :=
  match pre.getLast? with
  | none => b = true
  | some c => isSpaceRE2 c = true

/-- Expresses that the characters after a match either are empty (the match
ends the line) or start with a whitespace character. -/
def rightBoundary (post : List Char) : Prop :=
  match post with
  | [] => True
  | c :: _ => isSpaceRE2 c = true

/-- Claim-side predicate taken from the specification's words: the line
contains the filename as an exact whitespace-delimited token, at the start or
end of the line or surrounded by whitespace. -/
def containsToken (key line : String) : Prop :=
  ∃ pre post, line.data = pre ++ key.data ++ post ∧
    leftBoundary true pre ∧ rightBoundary post

/-- Embeds `utils.GetLineInFileMatchingKey`: scan the file's lines in order
and return the first line matched by the regex `(^|\s)key($|\s)`; if no line
matches, report the error `no match found`.  The file's content is presented
as its list of lines, as produced by `bufio.Scanner`. -/
def getLineInFileMatchingKey (key : String) : List String → Except String String
  | [] => Except.error "no match found"
  | l :: ls => if lineKeyMatch key l then Except.ok l else getLineInFileMatchingKey key ls

theorem dropLit_eq_some_iff {key : List Char} :
    ∀ {text rest : List Char}, dropLit key text = some rest ↔ text = key ++ rest := by
  induction key with
  | nil =>
    intro text rest
    simp [dropLit]
  | cons p ps ih =>
    intro text rest
    cases text with
    | nil => simp [dropLit]
    | cons c cs =>
      simp only [dropLit, List.cons_append, List.cons.injEq]
      by_cases h : p = c
      · subst h
        simp [ih]
      · have hb : (p == c) = false := by simpa [beq_iff_eq] using h
        simp only [hb, Bool.false_eq_true, if_false, reduceCtorEq, false_iff, not_and]
        intro hc
        exact absurd hc.symm h

theorem litHere_iff {key text : List Char} :
    litHere key text = true ↔ ∃ post, text = key ++ post ∧ rightBoundary post := by
  unfold litHere
  cases h : dropLit key text with
  | none =>
    simp only [Bool.false_eq_true, false_iff]
    rintro ⟨post, hp, _⟩
    rw [dropLit_eq_some_iff.mpr hp] at h
    cases h
  | some rest =>
    have htext : text = key ++ rest := dropLit_eq_some_iff.mp h
    cases rest with
    | nil =>
      simp only [true_iff]
      exact ⟨[], htext, trivial⟩
    | cons d ds =>
      constructor
      · intro hd
        exact ⟨d :: ds, htext, hd⟩
      · rintro ⟨post, hp, hr⟩
        have : d :: ds = post := List.append_cancel_left (htext ▸ hp)
        rw [← this] at hr
        exact hr

theorem scanWith_litHere_iff (key : List Char) :
    ∀ (text : List Char) (b : Bool), scanWith (litHere key) b text = true ↔
      ∃ pre post, text = pre ++ key ++ post ∧ leftBoundary b pre ∧ rightBoundary post := by
  intro text
  induction text with
  | nil =>
    intro b
    constructor
    · intro h
      simp only [scanWith, Bool.and_eq_true] at h
      obtain ⟨hb, hl⟩ := h
      obtain ⟨post, hp, hr⟩ := litHere_iff.mp hl
      obtain ⟨hk, hpost⟩ := List.append_eq_nil.mp hp.symm
      subst hk hpost
      exact ⟨[], [], rfl, hb, trivial⟩
    · rintro ⟨pre, post, hsplit, hleft, hright⟩
      obtain ⟨hpk, hpost⟩ := List.append_eq_nil.mp hsplit.symm
      obtain ⟨hpre, hk⟩ := List.append_eq_nil.mp hpk
      subst hpre hk hpost
      have hb : b = true := hleft
      simp [scanWith, hb, litHere, dropLit]
  | cons c cs ih =>
    intro b
    constructor
    · intro h
      simp only [scanWith, Bool.or_eq_true, Bool.and_eq_true] at h
      rcases h with ⟨hb, hl⟩ | hrec
      · obtain ⟨post, hp, hr⟩ := litHere_iff.mp hl
        exact ⟨[], post, by simpa using hp, hb, hr⟩
      · obtain ⟨pre, post, hsplit, hleft, hright⟩ := (ih (isSpaceRE2 c)).mp hrec
        refine ⟨c :: pre, post, by simp [hsplit], ?_, hright⟩
        cases pre with
        | nil =>
          have hc : isSpaceRE2 c = true := hleft
          simp [leftBoundary, List.getLast?_singleton, hc]
        | cons d ds =>
          simpa [leftBoundary, List.getLast?_cons_cons] using hleft
    · rintro ⟨pre, post, hsplit, hleft, hright⟩
      cases pre with
      | nil =>
        have hb : b = true := hleft
        have hl : litHere key (c :: cs) = true :=
          litHere_iff.mpr ⟨post, by simpa using hsplit, hright⟩
        simp [scanWith, hb, hl]
      | cons c' pre' =>
        have hc : c = c' ∧ cs = pre' ++ key ++ post := by simpa using hsplit
        have hrec : scanWith (litHere key) (isSpaceRE2 c) cs = true := by
          refine (ih (isSpaceRE2 c)).mpr ⟨pre', post, hc.2, ?_, hright⟩
          cases pre' with
          | nil =>
            have h1 : isSpaceRE2 c' = true := by
              simpa [leftBoundary, List.getLast?_singleton] using hleft
            show isSpaceRE2 c = true
            rw [hc.1]
            exact h1
          | cons d ds =>
            simpa [leftBoundary, List.getLast?_cons_cons] using hleft
        simp [scanWith, hrec]

theorem containsTokenB_iff (key line : String) :
    containsTokenB key line = true ↔ containsToken key line :=
  scanWith_litHere_iff key.data line.data true

theorem patConsume_eq_dropLit {key : List Char} (h : ∀ c ∈ key, c ≠ '.') :
    ∀ text, patConsume key text = dropLit key text := by
  induction key with
  | nil => intro text; rfl
  | cons p ps ih =>
    intro text
    cases text with
    | nil => rfl
    | cons c cs =>
      have hp : p ≠ '.' := h p (List.mem_cons_self p ps)
      have ihh := ih (fun x hx => h x (List.mem_cons_of_mem p hx))
      have hpd : (p == '.') = false := by simpa [beq_iff_eq] using hp
      simp only [patConsume, dropLit, hpd, Bool.false_or]
      by_cases hpc : (p == c) = true <;> simp [hpc, ihh]

theorem matchHere_eq_litHere {key : List Char} (h : ∀ c ∈ key, c ≠ '.') (text : List Char) :
    matchHere key text = litHere key text := by
  unfold matchHere litHere
  rw [patConsume_eq_dropLit h]

theorem scanWith_congr {f g : List Char → Bool} (h : ∀ t, f t = g t) :
    ∀ (text : List Char) (b : Bool), scanWith f b text = scanWith g b text := by
  intro text
  induction text with
  | nil => intro b; simp [scanWith, h]
  | cons c cs ih => intro b; simp [scanWith, h, ih]

theorem lineKeyMatch_eq_containsTokenB {key : String} (h : ∀ c ∈ key.data, c ≠ '.')
    (line : String) : lineKeyMatch key line = containsTokenB key line :=
  scanWith_congr (matchHere_eq_litHere h) line.data true

theorem getLineInFileMatchingKey_eq_find? (key : String) (lines : List String) :
    getLineInFileMatchingKey key lines =
      match lines.find? (fun l => lineKeyMatch key l) with
      | some l => Except.ok l
      | none => Except.error "no match found" := by
  induction lines with
  | nil => rfl
  | cons l ls ih =>
    simp only [getLineInFileMatchingKey, List.find?_cons]
    by_cases h : lineKeyMatch key l <;> simp [h, ih]

/-- Claim C3 (amended): the checksum-line lookup interprets the filename as a
regular-expression fragment inside `(^|\s)key($|\s)`, so `'.'` in a filename
matches any character.  For filenames containing no `'.'` (and no other RE2
metacharacter) the lookup returns exactly the first line containing the
filename as an exact whitespace-delimited token — in particular a prefix
collision inside a longer token is never returned — but for filenames with
`'.'` the lookup can also accept lines in which the filename does not occur as
a token at all. -/
theorem c3_checksum_line_lookup_amended :
    (∀ (key : String) (lines : List String), (∀ c ∈ key.data, c ≠ '.') →
      getLineInFileMatchingKey key lines =
        match lines.find? (fun l => containsTokenB key l) with
        | some l => Except.ok l
        | none => Except.error "no match found") ∧
    (∀ key line, containsTokenB key line = true ↔ containsToken key line) ∧
    lineKeyMatch "a.b" "deadbeef a_b" = true := by
  refine ⟨?_, containsTokenB_iff, by decide⟩
  intro key lines hk
  rw [getLineInFileMatchingKey_eq_find? key lines]
  have hfun : (fun l => lineKeyMatch key l) = (fun l => containsTokenB key l) :=
    funext fun l => lineKeyMatch_eq_containsTokenB hk l
  rw [hfun]

/-- Witness for `c3_checksum_line_lookup_amended`: a dot-free filename looked
up in a two-line checksum file. -/
theorem c3_checksum_line_lookup_amended_witness :
    getLineInFileMatchingKey "tool_bin" ["9f8e tool_bin", "0000 other"] =
      match ["9f8e tool_bin", "0000 other"].find? (fun l => containsTokenB "tool_bin" l) with
      | some l => Except.ok l
      | none => Except.error "no match found" :=
  c3_checksum_line_lookup_amended.1 "tool_bin" ["9f8e tool_bin", "0000 other"] (by decide)

/-- Claim C3 counterexample: for the filename `a.b`, the lookup returns the
line `deadbeef a_b` even though that line does not contain `a.b` as a
whitespace-delimited token (the `'.'` of the filename matched the `'_'`), so
the lookup is not an exact token match for every filename. -/
theorem c3_checksum_line_lookup_counterexample :
    getLineInFileMatchingKey "a.b" ["deadbeef a_b"] = Except.ok "deadbeef a_b" ∧
    ¬ containsToken "a.b" "deadbeef a_b" := by
  constructor
  · rfl
  · intro h
    have hb := (containsTokenB_iff "a.b" "deadbeef a_b").mpr h
    have hf : containsTokenB "a.b" "deadbeef a_b" = false := by decide
    rw [hf] at hb
    exact Bool.false_ne_true hb

/-- Models Go `strings.TrimSpace` on ASCII strings. -/
def trimSpace (s : String) : String :=
  ⟨((s.data.dropWhile isSpaceGo).reverse.dropWhile isSpaceGo).reverse⟩

/-- Accumulator-based splitting of a character list into maximal runs of
non-whitespace characters; `cur` holds the current run reversed. -/
def fieldsAux : List Char → List Char → List (List Char)
  | cur, [] => if cur.isEmpty then [] else [cur.reverse]
  | cur, c :: cs =>
    if isSpaceGo c then
      if cur.isEmpty then fieldsAux [] cs else cur.reverse :: fieldsAux [] cs
    else fieldsAux (c :: cur) cs

/-- Models Go `strings.Fields` on ASCII strings. -/
def goFields (s : String) : List String :=
  (fieldsAux [] s.data).map (fun l => ⟨l⟩)

/-- Drops one trailing carriage return, as `bufio`'s `dropCR` does. -/
def dropCR (l : List Char) : List Char :=
  match l.getLast? with
  | some c => if c == '\r' then l.dropLast else l
  | none => l

/-- Accumulator for `splitLines`; `cur` holds the current line reversed. -/
def splitLinesAux : List Char → List Char → List (List Char)
  | cur, [] => if cur.isEmpty then [] else [dropCR cur.reverse]
  | cur, c :: cs =>
    if c == '\n' then dropCR cur.reverse :: splitLinesAux [] cs
    else splitLinesAux (c :: cur) cs

/-- Models `bufio.Scanner` with `ScanLines`: the content's lines without
their terminators (no empty final line after a trailing newline). -/
def splitLines (s : String) : List String :=
  (splitLinesAux [] s.data).map (fun l => ⟨l⟩)

/-- Models `strings.Split(s, " ")[0]`: the prefix of `s` before the first
space (ocm.go's checksum-file parsing). -/
def firstSplitToken (s : String) : String :=
  ⟨s.data.takeWhile (fun c => !(c == ' '))⟩

/-- Maps a half-byte to its lowercase hex digit, as Go `encoding/hex` does. -/
def hexDigit (n : Nat) : Char :=
  if n < 10 then Char.ofNat ('0'.toNat + n) else Char.ofNat ('a'.toNat + (n - 10))

/-- Models the `hex.EncodeToString` step of `utils.Sha256sum`: two lowercase
hex digits per byte.  Bytes are naturals below 256 (higher bits are ignored
via `% 256`-free masking of the two half-bytes). -/
def hexEncode (bytes : List Nat) : String :=
  ⟨(bytes.map (fun b => [hexDigit (b / 16 % 16), hexDigit (b % 16)])).flatten⟩

/-- Embeds the digest-acceptance test of the verify step (`osdctl.go`,
`rosa.go`, `ocm.go`, ...): the install proceeds exactly when
`strings.TrimSpace(binarySum) == strings.TrimSpace(actual)`. -/
def digestAccepted (binarySum actual : String) : Bool :=
  trimSpace binarySum == trimSpace actual

/-- Claim-side comparison, following the specification's words: equality
taken case-insensitively after trimming surrounding whitespace. -/
def digestAcceptedCaseInsensitive (binarySum actual : String) : Bool :=
  toLowerAscii (trimSpace binarySum) == toLowerAscii (trimSpace actual)

theorem hexDigit_lower {n : Nat} (h : n < 16) :
    (hexDigit n).isDigit = true ∨ ('a' ≤ hexDigit n ∧ hexDigit n ≤ 'f') := by
  interval_cases n <;> decide

/-- Claim C4 (amended): the verify step compares the computed digest with the
expected digest by exact, case-sensitive equality after trimming surrounding
whitespace from both sides; the computed digest is always lowercase hex, so an
expected digest written in uppercase fails with a checksum mismatch even when
it denotes the same value, and corrupting one hex character likewise fails. -/
theorem c4_digest_comparison_amended :
    (∀ binarySum actual, digestAccepted binarySum actual = true ↔
      trimSpace binarySum = trimSpace actual) ∧
    (∀ bytes, ∀ c ∈ (hexEncode bytes).data,
      c.isDigit = true ∨ ('a' ≤ c ∧ c ≤ 'f')) ∧
    digestAccepted "2cf24d" " 2cf24d\n" = true ∧
    digestAccepted "ab12cd" "AB12CD" = false ∧
    digestAccepted "ab12cd" "ab12ce" = false := by
  refine ⟨?_, ?_, by decide, by decide, by decide⟩
  · intro binarySum actual
    simp [digestAccepted]
  · intro bytes c hc
    simp only [hexEncode, List.mem_flatten, List.mem_map] at hc
    obtain ⟨l, ⟨b, hbmem, hb⟩, hcl⟩ := hc
    subst hb
    simp only [List.mem_cons, List.not_mem_nil, or_false] at hcl
    rcases hcl with h1 | h1
    · subst h1
      exact hexDigit_lower (Nat.mod_lt _ (by norm_num))
    · subst h1
      exact hexDigit_lower (Nat.mod_lt _ (by norm_num))

/-- Witness for `c4_digest_comparison_amended`: the lowercase-hex clause
applied to the digest character of the byte `255`. -/
theorem c4_digest_comparison_amended_witness :
    'f' ∈ (hexEncode [255]).data ∧
      ('f'.isDigit = true ∨ ('a' ≤ 'f' ∧ 'f' ≤ 'f')) :=
  ⟨by decide, c4_digest_comparison_amended.2.1 [255] 'f' (by decide)⟩

/-- Claim C4 counterexample: the computed digest of the bytes `[0xab, 0x12]`
is the lowercase string `ab12`; the uppercase spelling `AB12` denotes the same
value (they are equal case-insensitively), yet the code's comparison rejects
it, so verification is not case-insensitive. -/
theorem c4_digest_comparison_counterexample :
    hexEncode [171, 18] = "ab12" ∧
    digestAcceptedCaseInsensitive "ab12" "AB12" = true ∧
    digestAccepted "ab12" "AB12" = false := by
  refine ⟨by decide, by decide, by decide⟩

/-- Release metadata as the installers use it: the tag name and the names of
the release's assets (from `github.RepositoryRelease`). -/
structure Release where
  tagName : String
  assets : List String
  deriving DecidableEq

/-- Filesystem state an installer touches: the tool's symlink in the `latest`
directory (its target path, or `none` when absent), the files under the
tool's version directories as path-content pairs, and whether the tool's own
directory tree exists. -/
structure FS where
  latest : Option String
  verFiles : List (String × String)
  toolDirExists : Bool
  deriving DecidableEq

/-- Stage-labelled errors of one tool-install invocation (abstracting the
formatted error strings of the Go code). -/
inductive InstallErr
  | fetchFailed
  | wrongAssetCount
  | wrongChecksumCount
  | assetNotFound
  | duplicateChecksum
  | duplicateBinary
  | mkdirFailed
  | downloadFailed
  | shaFailed
  | readBinFailed
  | readChecksumFailed
  | checksumLineNotFound
  | checksumFormatInvalid
  | checksumMismatch
  | removeFailed
  | symlinkFailed
  deriving DecidableEq

/-- Embeds the relink step shared by the installers (`// Link as latest`):
`os.Remove` the existing symlink — an `IsNotExist` failure is tolerated, any
other failure is terminal — then `os.Symlink` the freshly installed binary.
`removeOk` and `symlinkOk` are the oracle outcomes of the two system calls. -/
def relinkLatest (removeOk symlinkOk : Bool) (target : String) (fs : FS) :
    Except InstallErr Unit × FS :=
  match fs.latest with
  | some _ =>
    if !removeOk then (Except.error InstallErr.removeFailed, fs)
    else if !symlinkOk then (Except.error InstallErr.symlinkFailed, { fs with latest := none })
    else (Except.ok (), { fs with latest := some target })
  | none =>
    if !symlinkOk then (Except.error InstallErr.symlinkFailed, fs)
    else (Except.ok (), { fs with latest := some target })

/-- Oracle for the external effects of a rosa-style install: the release
fetch, the version-directory creation, the asset download (on failure, the
files that still got written; on success, the checksum file's and the
binary's contents), the binary read for hashing, and the two relink calls.
`sha` gives the SHA-256 hex digest of a file content. -/
structure RosaEnv where
  fetch : Except Unit Release
  mkdirOk : Bool
  download : Except (List (String × String)) (String × String)
  shaOk : Bool
  sha : String → String
  removeOk : Bool
  symlinkOk : Bool

/-- Embeds `rosa.Tool.Install` (pkg/tools/rosa/rosa.go): fetch the latest
release; among the arch/OS-matching assets select exactly one non-`.sha256`
asset and exactly one `.sha256` asset, erroring on any other count; create
the version directory; download checksum and binary; compute the binary's
SHA-256; look up the checksum line keyed by the binary's filename; require
exactly two fields on that line; compare digests after trimming whitespace;
and only then relink `latest`. -/
def rosaInstall (goarch goos : String) (env : RosaEnv) (fs : FS) :
    Except InstallErr Unit × FS :=
  match env.fetch with
  | Except.error _ => (Except.error InstallErr.fetchFailed, fs)
  | Except.ok release =>
    match findAssetsExcluding [".sha256"] (findAssetsForArchAndOS goarch goos release.assets) with
    | [toolAsset] =>
      match findAssetsContaining [".sha256"] (findAssetsForArchAndOS goarch goos release.assets) with
      | [checksumAsset] =>
        if !env.mkdirOk then (Except.error InstallErr.mkdirFailed, fs)
        else
          let versionedDir := "rosa/" ++ release.tagName
          match env.download with
          | Except.error written =>
            (Except.error InstallErr.downloadFailed,
              { fs with verFiles := fs.verFiles ++ written })
          | Except.ok (ckContent, binContent) =>
            let fs1 : FS := { fs with verFiles := fs.verFiles ++
              [(versionedDir ++ "/" ++ checksumAsset, ckContent),
               (versionedDir ++ "/" ++ toolAsset, binContent)] }
            if !env.shaOk then (Except.error InstallErr.shaFailed, fs1)
            else
              let binarySum := env.sha binContent
              match getLineInFileMatchingKey toolAsset (splitLines ckContent) with
              | Except.error _ => (Except.error InstallErr.checksumLineNotFound, fs1)
              | Except.ok checksumLine =>
                match goFields checksumLine with
                | [actual, _] =>
                  if !digestAccepted binarySum actual then
                    (Except.error InstallErr.checksumMismatch, fs1)
                  else
                    relinkLatest env.removeOk env.symlinkOk
                      (versionedDir ++ "/" ++ toolAsset) fs1
                | _ => (Except.error InstallErr.checksumFormatInvalid, fs1)
      | _ => (Except.error InstallErr.wrongChecksumCount, fs)
    | _ => (Except.error InstallErr.wrongAssetCount, fs)

/-- Embeds the asset-selection loop of `ocm.Tool.Install` (ocm.go): iterate
the release's assets in order; skip names not containing the runtime OS, then
those not containing the runtime architecture (both case-sensitive substring
tests); a matching name containing `sha256` becomes the checksum asset and
any other matching name the binary asset, duplicates being immediate errors;
when the loop ends, both must have been found. -/
def ocmSelect (goarch goos : String) :
    List String → Option String → Option String → Except InstallErr (String × String)
  | [], ck, bin =>
    match ck, bin with
    | some c, some b => Except.ok (c, b)
    | _, _ => Except.error InstallErr.assetNotFound
  | a :: rest, ck, bin =>
    if !(goContains a goos) then ocmSelect goarch goos rest ck bin
    else if !(goContains a goarch) then ocmSelect goarch goos rest ck bin
    else if goContains a "sha256" then
      match ck with
      | some _ => Except.error InstallErr.duplicateChecksum
      | none => ocmSelect goarch goos rest (some a) bin
    else
      match bin with
      | some _ => Except.error InstallErr.duplicateBinary
      | none => ocmSelect goarch goos rest ck (some a)

/-- Oracle for the external effects of the ocm install; `readBinOk` and
`readCkOk` are the outcomes of the two `os.ReadFile` calls. -/
structure OcmEnv where
  fetch : Except Unit Release
  mkdirOk : Bool
  download : Except (List (String × String)) (String × String)
  readBinOk : Bool
  readCkOk : Bool
  sha : String → String
  removeOk : Bool
  symlinkOk : Bool

/-- Embeds `ocm.Tool.Install` (pkg/tools/ocm/ocm.go): fetch, select assets
via `ocmSelect`, create the version directory, download, hash the downloaded
binary, read the checksum file and take the first space-separated token, and
compare after trimming; on mismatch print a warning and return success
without relinking; on match relink `latest`. -/
def ocmInstall (goarch goos : String) (env : OcmEnv) (fs : FS) :
    Except InstallErr Unit × FS :=
  match env.fetch with
  | Except.error _ => (Except.error InstallErr.fetchFailed, fs)
  | Except.ok release =>
    match ocmSelect goarch goos release.assets none none with
    | Except.error e => (Except.error e, fs)
    | Except.ok (checksumAsset, ocmBinaryAsset) =>
      if !env.mkdirOk then (Except.error InstallErr.mkdirFailed, fs)
      else
        let versionedDir := "ocm/" ++ release.tagName
        match env.download with
        | Except.error written =>
          (Except.error InstallErr.downloadFailed,
            { fs with verFiles := fs.verFiles ++ written })
        | Except.ok (ckContent, binContent) =>
          let fs1 : FS := { fs with verFiles := fs.verFiles ++
            [(versionedDir ++ "/" ++ checksumAsset, ckContent),
             (versionedDir ++ "/" ++ ocmBinaryAsset, binContent)] }
          if !env.readBinOk then (Except.error InstallErr.readBinFailed, fs1)
          else
            let binarySum := env.sha binContent
            if !env.readCkOk then (Except.error InstallErr.readChecksumFailed, fs1)
            else
              let checksum := firstSplitToken ckContent
              if !digestAccepted binarySum checksum then
                (Except.ok (), fs1)
              else
                relinkLatest env.removeOk env.symlinkOk
                  (versionedDir ++ "/" ++ ocmBinaryAsset) fs1

theorem relinkLatest_spec (removeOk symlinkOk : Bool) (target : String) (fs : FS) :
    (relinkLatest removeOk symlinkOk target fs).2.verFiles = fs.verFiles ∧
    (((relinkLatest removeOk symlinkOk target fs).1 = Except.ok ()
        ∧ (relinkLatest removeOk symlinkOk target fs).2.latest = some target)
    ∨ ((relinkLatest removeOk symlinkOk target fs).1 = Except.error InstallErr.removeFailed
        ∧ (relinkLatest removeOk symlinkOk target fs).2.latest = fs.latest)
    ∨ ((relinkLatest removeOk symlinkOk target fs).1 = Except.error InstallErr.symlinkFailed
        ∧ (relinkLatest removeOk symlinkOk target fs).2.latest = none)) := by
  rcases hl : fs.latest with _ | t <;> by_cases hr : removeOk <;> by_cases hs : symlinkOk <;>
    simp [relinkLatest, hl, hr, hs]

theorem relinkLatest_latest_or (removeOk symlinkOk : Bool) (target : String) (fs0 : FS)
    (base : Option String) (hbase : fs0.latest = base) :
    (relinkLatest removeOk symlinkOk target fs0).2.latest = base ∨
    (relinkLatest removeOk symlinkOk target fs0).1 = Except.ok () ∨
    (relinkLatest removeOk symlinkOk target fs0).1 = Except.error InstallErr.symlinkFailed := by
  rcases relinkLatest_spec removeOk symlinkOk target fs0 with ⟨_, ⟨h1, _⟩ | ⟨h1, h2⟩ | ⟨h1, _⟩⟩
  · exact Or.inr (Or.inl h1)
  · exact Or.inl (h2.trans hbase)
  · exact Or.inr (Or.inr h1)

theorem rosaInstall_latest_cases (goarch goos : String) (env : RosaEnv) (fs : FS) :
    (rosaInstall goarch goos env fs).2.latest = fs.latest ∨
    (rosaInstall goarch goos env fs).1 = Except.ok () ∨
    (rosaInstall goarch goos env fs).1 = Except.error InstallErr.symlinkFailed := by
  simp only [rosaInstall]
  repeat' split
  all_goals try exact Or.inl rfl
  exact relinkLatest_latest_or _ _ _ _ _ rfl

theorem ocmInstall_latest_cases (goarch goos : String) (env : OcmEnv) (fs : FS) :
    (ocmInstall goarch goos env fs).2.latest = fs.latest ∨
    (ocmInstall goarch goos env fs).1 = Except.ok () ∨
    (ocmInstall goarch goos env fs).1 = Except.error InstallErr.symlinkFailed := by
  simp only [ocmInstall]
  repeat' split
  all_goals try exact Or.inl rfl
  exact relinkLatest_latest_or _ _ _ _ _ rfl

theorem rosaInstall_mismatch (goarch goos : String) (env : RosaEnv) (fs : FS)
    (release : Release) (toolAsset checksumAsset ckContent binContent line actual other : String)
    (hfetch : env.fetch = Except.ok release)
    (hbin : findAssetsExcluding [".sha256"] (findAssetsForArchAndOS goarch goos release.assets)
      = [toolAsset])
    (hck : findAssetsContaining [".sha256"] (findAssetsForArchAndOS goarch goos release.assets)
      = [checksumAsset])
    (hmk : env.mkdirOk = true)
    (hdl : env.download = Except.ok (ckContent, binContent))
    (hsha : env.shaOk = true)
    (hline : getLineInFileMatchingKey toolAsset (splitLines ckContent) = Except.ok line)
    (hfields : goFields line = [actual, other])
    (hmismatch : digestAccepted (env.sha binContent) actual = false) :
    rosaInstall goarch goos env fs = (Except.error InstallErr.checksumMismatch,
      { fs with verFiles := fs.verFiles ++
        [("rosa/" ++ release.tagName ++ "/" ++ checksumAsset, ckContent),
         ("rosa/" ++ release.tagName ++ "/" ++ toolAsset, binContent)] }) := by
  simp only [rosaInstall, hfetch, hbin, hck, hmk, hdl, hsha, hline, hfields, hmismatch]
  simp

/-- Claim C1: for the rosa-style and ocm-style installers, any invocation that
fails at or before the verification step — release-fetch failure, wrong asset
counts, directory-creation failure, download failure, hashing failure,
checksum-line or checksum-format failure, checksum mismatch; in fact every
failure other than the final symlink call itself — leaves the `latest`
symlink exactly as it was, and any run that changes the `latest` symlink got
past the digest comparison (its result is success, or failure of the final
symlink call after the tolerated removal); in particular the checksum-mismatch
path leaves `latest` untouched while keeping the downloaded files. -/
theorem c1_relink_only_after_verification :
    (∀ goarch goos env fs e, (rosaInstall goarch goos env fs).1 = Except.error e →
        e ≠ InstallErr.symlinkFailed →
        (rosaInstall goarch goos env fs).2.latest = fs.latest) ∧
    (∀ goarch goos env fs, (rosaInstall goarch goos env fs).2.latest ≠ fs.latest →
        (rosaInstall goarch goos env fs).1 = Except.ok () ∨
        (rosaInstall goarch goos env fs).1 = Except.error InstallErr.symlinkFailed) ∧
    (∀ goarch goos env fs e, (ocmInstall goarch goos env fs).1 = Except.error e →
        e ≠ InstallErr.symlinkFailed →
        (ocmInstall goarch goos env fs).2.latest = fs.latest) ∧
    (∀ goarch goos env fs, (ocmInstall goarch goos env fs).2.latest ≠ fs.latest →
        (ocmInstall goarch goos env fs).1 = Except.ok () ∨
        (ocmInstall goarch goos env fs).1 = Except.error InstallErr.symlinkFailed) ∧
    (∀ goarch goos env fs release toolAsset checksumAsset ckContent binContent line actual other,
        env.fetch = Except.ok release →
        findAssetsExcluding [".sha256"] (findAssetsForArchAndOS goarch goos release.assets)
          = [toolAsset] →
        findAssetsContaining [".sha256"] (findAssetsForArchAndOS goarch goos release.assets)
          = [checksumAsset] →
        env.mkdirOk = true →
        env.download = Except.ok (ckContent, binContent) →
        env.shaOk = true →
        getLineInFileMatchingKey toolAsset (splitLines ckContent) = Except.ok line →
        goFields line = [actual, other] →
        digestAccepted (env.sha binContent) actual = false →
        rosaInstall goarch goos env fs = (Except.error InstallErr.checksumMismatch,
          { fs with verFiles := fs.verFiles ++
            [("rosa/" ++ release.tagName ++ "/" ++ checksumAsset, ckContent),
             ("rosa/" ++ release.tagName ++ "/" ++ toolAsset, binContent)] })) := by
  refine ⟨?_, ?_, ?_, ?_, ?_⟩
  · intro goarch goos env fs e h hne
    rcases rosaInstall_latest_cases goarch goos env fs with hl | hok | hsl
    · exact hl
    · rw [h] at hok
      exact Except.noConfusion hok
    · rw [h] at hsl
      have : e = InstallErr.symlinkFailed := by
        simpa using hsl
      exact absurd this hne
  · intro goarch goos env fs hne
    rcases rosaInstall_latest_cases goarch goos env fs with hl | hrest
    · exact absurd hl hne
    · exact hrest
  · intro goarch goos env fs e h hne
    rcases ocmInstall_latest_cases goarch goos env fs with hl | hok | hsl
    · exact hl
    · rw [h] at hok
      exact Except.noConfusion hok
    · rw [h] at hsl
      have : e = InstallErr.symlinkFailed := by
        simpa using hsl
      exact absurd this hne
  · intro goarch goos env fs hne
    rcases ocmInstall_latest_cases goarch goos env fs with hl | hrest
    · exact absurd hl hne
    · exact hrest
  · intro goarch goos env fs release toolAsset checksumAsset ckContent binContent line actual other
      hfetch hbin hck hmk hdl hsha hline hfields hmismatch
    exact rosaInstall_mismatch goarch goos env fs release toolAsset checksumAsset ckContent
      binContent line actual other hfetch hbin hck hmk hdl hsha hline hfields hmismatch

/-- Concrete release used by the install witnesses. -/
def demoRelease : Release :=
  { tagName := "v1",
    assets := ["rosa_linux_amd64", "rosa_linux_amd64.sha256"] }

/-- Concrete rosa-install environment whose checksum verification fails: the
hash oracle reports `aaaa` while the checksum file advertises `bbbb`. -/
def demoRosaEnvMismatch : RosaEnv :=
  { fetch := Except.ok demoRelease,
    mkdirOk := true,
    download := Except.ok ("bbbb rosa_linux_amd64\n", "BIN"),
    shaOk := true,
    sha := fun _ => "aaaa",
    removeOk := true,
    symlinkOk := true }

/-- Concrete pre-install filesystem with an existing `latest` symlink. -/
def demoFS : FS :=
  { latest := some "rosa/v0/rosa_linux_amd64", verFiles := [], toolDirExists := true }

/-- Witness for `c1_relink_only_after_verification`: a checksum-mismatch run
leaves the pre-existing `latest` symlink unchanged. -/
theorem c1_relink_only_after_verification_witness :
    (rosaInstall "amd64" "linux" demoRosaEnvMismatch demoFS).2.latest = demoFS.latest :=
  c1_relink_only_after_verification.1 "amd64" "linux" demoRosaEnvMismatch demoFS
    InstallErr.checksumMismatch rfl (by decide)

theorem rosaInstall_wrongAssetCount (goarch goos : String) (env : RosaEnv) (fs : FS)
    (release : Release) (hfetch : env.fetch = Except.ok release)
    (hlen : (findAssetsExcluding [".sha256"]
      (findAssetsForArchAndOS goarch goos release.assets)).length ≠ 1) :
    rosaInstall goarch goos env fs = (Except.error InstallErr.wrongAssetCount, fs) := by
  simp only [rosaInstall, hfetch]
  cases hm : findAssetsExcluding [".sha256"] (findAssetsForArchAndOS goarch goos release.assets) with
  | nil => rfl
  | cons a t =>
    cases t with
    | nil =>
      rw [hm] at hlen
      simp at hlen
    | cons b t2 => rfl

theorem rosaInstall_wrongChecksumCount (goarch goos : String) (env : RosaEnv) (fs : FS)
    (release : Release) (toolAsset : String) (hfetch : env.fetch = Except.ok release)
    (hbin : findAssetsExcluding [".sha256"] (findAssetsForArchAndOS goarch goos release.assets)
      = [toolAsset])
    (hlen : (findAssetsContaining [".sha256"]
      (findAssetsForArchAndOS goarch goos release.assets)).length ≠ 1) :
    rosaInstall goarch goos env fs = (Except.error InstallErr.wrongChecksumCount, fs) := by
  simp only [rosaInstall, hfetch, hbin]
  cases hm : findAssetsContaining [".sha256"] (findAssetsForArchAndOS goarch goos release.assets) with
  | nil => rfl
  | cons a t =>
    cases t with
    | nil =>
      rw [hm] at hlen
      simp at hlen
    | cons b t2 => rfl

theorem ocmInstall_selectError (goarch goos : String) (env : OcmEnv) (fs : FS)
    (release : Release) (e : InstallErr) (hfetch : env.fetch = Except.ok release)
    (hsel : ocmSelect goarch goos release.assets none none = Except.error e) :
    ocmInstall goarch goos env fs = (Except.error e, fs) := by
  simp only [ocmInstall, hfetch, hsel]

/-- Assets the ocm selection loop treats as binary candidates: names that
contain the runtime OS and architecture and do not contain `sha256`. -/
def ocmBinaryCandidates (goarch goos : String) (assets : List String) : List String :=
  assets.filter (fun a => goContains a goos && goContains a goarch && !goContains a "sha256")

/-- Assets the ocm selection loop treats as checksum candidates: names that
contain the runtime OS, the runtime architecture and `sha256`. -/
def ocmChecksumCandidates (goarch goos : String) (assets : List String) : List String :=
  assets.filter (fun a => goContains a goos && goContains a goarch && goContains a "sha256")

theorem ocmSelect_ok_counts (goarch goos : String) :
    ∀ (assets : List String) (ck bin : Option String) (c b : String),
      ocmSelect goarch goos assets ck bin = Except.ok (c, b) →
      (ocmBinaryCandidates goarch goos assets).length + (if bin.isSome then 1 else 0) = 1 ∧
      (ocmChecksumCandidates goarch goos assets).length + (if ck.isSome then 1 else 0) = 1 := by
  intro assets
  induction assets with
  | nil =>
    intro ck bin c b h
    cases ck <;> cases bin <;>
      simp_all [ocmSelect, ocmBinaryCandidates, ocmChecksumCandidates]
  | cons a rest ih =>
    intro ck bin c b h
    cases hos : goContains a goos with
    | false =>
      have hrec := ih ck bin c b (by simpa [ocmSelect, hos] using h)
      have e1 : ocmBinaryCandidates goarch goos (a :: rest)
          = ocmBinaryCandidates goarch goos rest := by
        simp [ocmBinaryCandidates, List.filter_cons, hos]
      have e2 : ocmChecksumCandidates goarch goos (a :: rest)
          = ocmChecksumCandidates goarch goos rest := by
        simp [ocmChecksumCandidates, List.filter_cons, hos]
      rw [e1, e2]
      exact hrec
    | true =>
      cases har : goContains a goarch with
      | false =>
        have hrec := ih ck bin c b (by simpa [ocmSelect, hos, har] using h)
        have e1 : ocmBinaryCandidates goarch goos (a :: rest)
            = ocmBinaryCandidates goarch goos rest := by
          simp [ocmBinaryCandidates, List.filter_cons, hos, har]
        have e2 : ocmChecksumCandidates goarch goos (a :: rest)
            = ocmChecksumCandidates goarch goos rest := by
          simp [ocmChecksumCandidates, List.filter_cons, hos, har]
        rw [e1, e2]
        exact hrec
      | true =>
        cases hsh : goContains a "sha256" with
        | true =>
          cases hck : ck with
          | some x =>
            rw [hck] at h
            simp [ocmSelect, hos, har, hsh] at h
          | none =>
            rw [hck] at h
            have hrec := ih (some a) bin c b (by simpa [ocmSelect, hos, har, hsh] using h)
            have e1 : ocmBinaryCandidates goarch goos (a :: rest)
                = ocmBinaryCandidates goarch goos rest := by
              simp [ocmBinaryCandidates, List.filter_cons, hos, har, hsh]
            have e2 : ocmChecksumCandidates goarch goos (a :: rest)
                = a :: ocmChecksumCandidates goarch goos rest := by
              simp [ocmChecksumCandidates, List.filter_cons, hos, har, hsh]
            rw [e1, e2]
            refine ⟨hrec.1, ?_⟩
            have h2 := hrec.2
            simp only [Option.isSome_some, if_true] at h2
            simp only [Option.isSome_none, Bool.false_eq_true, if_false, add_zero,
              List.length_cons]
            omega
        | false =>
          cases hbin : bin with
          | some x =>
            rw [hbin] at h
            simp [ocmSelect, hos, har, hsh] at h
          | none =>
            rw [hbin] at h
            have hrec := ih ck (some a) c b (by simpa [ocmSelect, hos, har, hsh] using h)
            have e1 : ocmBinaryCandidates goarch goos (a :: rest)
                = a :: ocmBinaryCandidates goarch goos rest := by
              simp [ocmBinaryCandidates, List.filter_cons, hos, har, hsh]
            have e2 : ocmChecksumCandidates goarch goos (a :: rest)
                = ocmChecksumCandidates goarch goos rest := by
              simp [ocmChecksumCandidates, List.filter_cons, hos, har, hsh]
            rw [e1, e2]
            refine ⟨?_, hrec.2⟩
            have h1 := hrec.1
            simp only [Option.isSome_some, if_true] at h1
            simp only [Option.isSome_none, Bool.false_eq_true, if_false, add_zero,
              List.length_cons]
            omega

theorem ocmSelect_count_error (goarch goos : String) (assets : List String)
    (h : (ocmBinaryCandidates goarch goos assets).length ≠ 1 ∨
         (ocmChecksumCandidates goarch goos assets).length ≠ 1) :
    ∃ e, ocmSelect goarch goos assets none none = Except.error e := by
  cases hsel : ocmSelect goarch goos assets none none with
  | error e => exact ⟨e, rfl⟩
  | ok cb =>
    obtain ⟨hb, hc⟩ := ocmSelect_ok_counts goarch goos assets none none cb.1 cb.2 (by rw [hsel])
    simp only [Option.isSome_none, if_false, Bool.false_eq_true, add_zero] at hb hc
    rcases h with h | h
    · exact absurd hb h
    · exact absurd hc h

/-- Claim C2: when the installer's filtering yields 0 or 2+ candidates for
the single expected binary asset or the single expected checksum asset,
Install returns an error without selecting any asset and without mutating the
filesystem.  The rosa-style installer checks both result-set lengths against
1 before any filesystem step; the ocm-style selection loop returns a result
only for asset lists with exactly one binary and one checksum candidate, its
duplicate detection erroring out rather than silently keeping the first
match, and its error propagates out of Install with the filesystem
unchanged. -/
theorem c2_exactly_one_asset_enforced :
    (∀ goarch goos (env : RosaEnv) fs release, env.fetch = Except.ok release →
      (findAssetsExcluding [".sha256"]
        (findAssetsForArchAndOS goarch goos release.assets)).length ≠ 1 →
      rosaInstall goarch goos env fs = (Except.error InstallErr.wrongAssetCount, fs)) ∧
    (∀ goarch goos (env : RosaEnv) fs release toolAsset, env.fetch = Except.ok release →
      findAssetsExcluding [".sha256"] (findAssetsForArchAndOS goarch goos release.assets)
        = [toolAsset] →
      (findAssetsContaining [".sha256"]
        (findAssetsForArchAndOS goarch goos release.assets)).length ≠ 1 →
      rosaInstall goarch goos env fs = (Except.error InstallErr.wrongChecksumCount, fs)) ∧
    (∀ goarch goos (env : OcmEnv) fs release e, env.fetch = Except.ok release →
      ocmSelect goarch goos release.assets none none = Except.error e →
      ocmInstall goarch goos env fs = (Except.error e, fs)) ∧
    (∀ goarch goos assets c b,
      ocmSelect goarch goos assets none none = Except.ok (c, b) →
      (ocmBinaryCandidates goarch goos assets).length = 1 ∧
      (ocmChecksumCandidates goarch goos assets).length = 1) ∧
    (∀ goarch goos assets,
      ((ocmBinaryCandidates goarch goos assets).length ≠ 1 ∨
        (ocmChecksumCandidates goarch goos assets).length ≠ 1) →
      ∃ e, ocmSelect goarch goos assets none none = Except.error e) := by
  refine ⟨?_, ?_, ?_, ?_, ?_⟩
  · intro goarch goos env fs release hfetch hlen
    exact rosaInstall_wrongAssetCount goarch goos env fs release hfetch hlen
  · intro goarch goos env fs release toolAsset hfetch hbin hlen
    exact rosaInstall_wrongChecksumCount goarch goos env fs release toolAsset hfetch hbin hlen
  · intro goarch goos env fs release e hfetch hsel
    exact ocmInstall_selectError goarch goos env fs release e hfetch hsel
  · intro goarch goos assets c b h
    have hc := ocmSelect_ok_counts goarch goos assets none none c b h
    simpa using hc
  · intro goarch goos assets h
    exact ocmSelect_count_error goarch goos assets h

/-- Concrete release with two arch/OS-matching binary assets. -/
def demoReleaseDup : Release :=
  { tagName := "v1", assets := ["rosa_linux_amd64_a", "rosa_linux_amd64_b"] }

/-- Concrete rosa-install environment serving the duplicate-binary release. -/
def demoRosaEnvDup : RosaEnv :=
  { fetch := Except.ok demoReleaseDup,
    mkdirOk := true,
    download := Except.error [],
    shaOk := true,
    sha := fun _ => "aaaa",
    removeOk := true,
    symlinkOk := true }

/-- Witness for `c2_exactly_one_asset_enforced`: with two matching binary
assets the rosa-style install stops with the asset-count error and the
filesystem untouched. -/
theorem c2_exactly_one_asset_enforced_witness :
    rosaInstall "amd64" "linux" demoRosaEnvDup demoFS
      = (Except.error InstallErr.wrongAssetCount, demoFS) :=
  c2_exactly_one_asset_enforced.1 "amd64" "linux" demoRosaEnvDup demoFS demoReleaseDup rfl
    (by decide)

/-- Claim C5: for the ocm tool, when the computed SHA-256 of the downloaded
binary does not equal the first token of the downloaded checksum file,
Install prints a warning and returns success (a nil error) while skipping the
relink entirely: the downloaded files stay in the version directory and the
`latest` symlink is unchanged. -/
theorem c5_ocm_mismatch_warns_and_succeeds :
    ∀ (goarch goos : String) (env : OcmEnv) (fs : FS) (release : Release)
      (checksumAsset binaryAsset ckContent binContent : String),
    env.fetch = Except.ok release →
    ocmSelect goarch goos release.assets none none = Except.ok (checksumAsset, binaryAsset) →
    env.mkdirOk = true →
    env.download = Except.ok (ckContent, binContent) →
    env.readBinOk = true →
    env.readCkOk = true →
    digestAccepted (env.sha binContent) (firstSplitToken ckContent) = false →
    ocmInstall goarch goos env fs = (Except.ok (),
      { fs with verFiles := fs.verFiles ++
        [("ocm/" ++ release.tagName ++ "/" ++ checksumAsset, ckContent),
         ("ocm/" ++ release.tagName ++ "/" ++ binaryAsset, binContent)] }) := by
  intro goarch goos env fs release checksumAsset binaryAsset ckContent binContent
    hfetch hsel hmk hdl hrb hrc hmm
  simp only [ocmInstall, hfetch, hsel, hmk, hdl, hrb, hrc, hmm]
  simp

/-- Concrete ocm-install environment whose checksum verification fails. -/
def demoOcmEnvMismatch : OcmEnv :=
  { fetch := Except.ok demoRelease,
    mkdirOk := true,
    download := Except.ok ("bbbb rosa_linux_amd64", "BIN"),
    readBinOk := true,
    readCkOk := true,
    sha := fun _ => "aaaa",
    removeOk := true,
    symlinkOk := true }

/-- Witness for `c5_ocm_mismatch_warns_and_succeeds`: the concrete mismatch
run returns success with the downloads kept and `latest` unchanged. -/
theorem c5_ocm_mismatch_warns_and_succeeds_witness :
    ocmInstall "amd64" "linux" demoOcmEnvMismatch demoFS = (Except.ok (),
      { demoFS with verFiles := demoFS.verFiles ++
        [("ocm/" ++ demoRelease.tagName ++ "/" ++ "rosa_linux_amd64.sha256",
          "bbbb rosa_linux_amd64"),
         ("ocm/" ++ demoRelease.tagName ++ "/" ++ "rosa_linux_amd64", "BIN")] }) :=
  c5_ocm_mismatch_warns_and_succeeds "amd64" "linux" demoOcmEnvMismatch demoFS demoRelease
    "rosa_linux_amd64.sha256" "rosa_linux_amd64" "bbbb rosa_linux_amd64" "BIN"
    rfl rfl rfl rfl rfl rfl rfl

/-- One registered tool as the batch loop sees it: its name and its Install
action on the filesystem. -/
structure ToolRun where
  name : String
  run : FS → Except InstallErr Unit × FS

/-- Embeds the per-tool loop of `tools.Install` (pkg/tools/tools.go): call
each tool's `Install` in order; on error print the error and `Skipping...`
and continue, on success print success — the loop body never breaks or
returns early.  Produces the final filesystem and the per-tool reported
outcome. -/
def runTools : List ToolRun → FS → FS × List (String × Option InstallErr)
  | [], fs => (fs, [])
  | t :: ts, fs =>
    let res := t.run fs
    let rep : String × Option InstallErr :=
      (t.name, match res.1 with
        | Except.ok _ => none
        | Except.error e => some e)
    let rest := runTools ts res.2
    (rest.1, rep :: rest.2)

/-- Embeds `tools.Install`: create the install directory and the `latest`
directory (either failure aborts before any tool is attempted), then run
every requested tool via the loop, and return nil regardless of per-tool
failures (the trailing `$PATH` advisory never changes the result). -/
def toolsInstall (mkInstallOk mkLatestOk : Bool) (ts : List ToolRun) (fs : FS) :
    Except String Unit × FS × List (String × Option InstallErr) :=
  if !mkInstallOk then (Except.error "failed to create installation directory", fs, [])
  else if !mkLatestOk then (Except.error "failed to create latest directory", fs, [])
  else
    let r := runTools ts fs
    (Except.ok (), r.1, r.2)

theorem runTools_names : ∀ (ts : List ToolRun) (fs : FS),
    (runTools ts fs).2.map Prod.fst = ts.map ToolRun.name := by
  intro ts
  induction ts with
  | nil => intro fs; rfl
  | cons t ts ih =>
    intro fs
    simp [runTools, ih]

/-- Claim C6: the batch install attempts every tool in the requested order —
the report list names exactly the requested tools, in order, whatever the
individual outcomes — and a per-tool failure never aborts the batch: once the
two directories are created the batch's own result is nil, and a failing head
tool is reported with its error while the loop continues over the tail. -/
theorem c6_batch_attempts_every_tool :
    (∀ ts fs, (runTools ts fs).2.map Prod.fst = ts.map ToolRun.name) ∧
    (∀ mk1 mk2 ts fs, mk1 = true → mk2 = true →
      (toolsInstall mk1 mk2 ts fs).1 = Except.ok () ∧
      (toolsInstall mk1 mk2 ts fs).2.2.map Prod.fst = ts.map ToolRun.name) ∧
    (∀ (t : ToolRun) ts fs e, (t.run fs).1 = Except.error e →
      (runTools (t :: ts) fs).2 = (t.name, some e) :: (runTools ts (t.run fs).2).2) := by
  refine ⟨runTools_names, ?_, ?_⟩
  · intro mk1 mk2 ts fs h1 h2
    subst h1 h2
    exact ⟨rfl, runTools_names ts fs⟩
  · intro t ts fs e h
    simp [runTools, h]

/-- Concrete failing tool for the batch witness. -/
def demoToolFail : ToolRun :=
  { name := "ocm", run := fun fs => (Except.error InstallErr.fetchFailed, fs) }

/-- Concrete succeeding tool for the batch witness. -/
def demoToolOk : ToolRun :=
  { name := "rosa", run := fun fs => (Except.ok (), fs) }

/-- Witness for `c6_batch_attempts_every_tool`: with a failing first tool the
batch still reports both tools and returns nil. -/
theorem c6_batch_attempts_every_tool_witness :
    (toolsInstall true true [demoToolFail, demoToolOk] demoFS).1 = Except.ok () ∧
    (toolsInstall true true [demoToolFail, demoToolOk] demoFS).2.2.map Prod.fst
      = [demoToolFail, demoToolOk].map ToolRun.name :=
  c6_batch_attempts_every_tool.2.1 true true [demoToolFail, demoToolOk] demoFS rfl rfl

/-- Abstracted failure of a filesystem call, distinguishing the absent-path
case from other failures. -/
inductive FsErr
  | notExist
  | other
  deriving DecidableEq

/-- Oracle for the three stdlib calls of `Default.InstalledVersion`:
`filepath.EvalSymlinks` on the `latest` symlink, `filepath.EvalSymlinks` on
the install root, and `filepath.Rel` of the two results. -/
structure IVEnv where
  latestResolve : Except FsErr String
  rootResolve : Except FsErr String
  relResult : Except FsErr String

/-- Outcome of `InstalledVersion`: a version string, a returned error
(labelled by the failing stage), or a runtime panic from an out-of-range
index. -/
inductive IVOutcome
  | ok (v : String)
  | err (stage : String)
  | indexOutOfRange
  deriving DecidableEq

/-- Splits at the first slash: the characters before it and after it, or
`none` when there is no slash. -/
def breakAtSlash : List Char → Option (List Char × List Char)
  | [] => none
  | c :: cs =>
    if c = '/' then some ([], cs)
    else
      match breakAtSlash cs with
      | none => none
      | some (p, q) => some (c :: p, q)

/-- Models `strings.SplitN(s, "/", n)` (the path separator on unix): at most
`n` pieces, the last piece keeping the remainder. -/
def splitNSlash : Nat → List Char → List (List Char)
  | 0, _ => []
  | 1, s => [s]
  | Nat.succ (Nat.succ m), s =>
    match breakAtSlash s with
    | none => [s]
    | some (p, q) => p :: splitNSlash (Nat.succ m) q

/-- Embeds `Default.InstalledVersion` (pkg/tools/base/default.go): with no
memoized value, resolve the `latest` symlink, resolve the install root,
compute the relative path, and take element 1 of
`strings.SplitN(rel, "/", 3)` — an index access that panics when the slice
has fewer than two elements.  Any error from the three calls is returned as
an error, the stage label standing in for the formatted Go message. -/
def installedVersion (memo : String) (env : IVEnv) : IVOutcome :=
  if memo ≠ "" then IVOutcome.ok memo
  else
    match env.latestResolve with
    | Except.error _ => IVOutcome.err "failed to retrieve symlinked file"
    | Except.ok _ =>
      match env.rootResolve with
      | Except.error _ => IVOutcome.err "failed to retrieve rootDir folder"
      | Except.ok _ =>
        match env.relResult with
        | Except.error _ => IVOutcome.err "failed to convert latestFilePath to relative"
        | Except.ok rel =>
          match (splitNSlash 3 rel.data).get? 1 with
          | none => IVOutcome.indexOutOfRange
          | some v => IVOutcome.ok ⟨v⟩

/-- Claim C7 (amended): `InstalledVersion` returns an error whenever the
`latest` symlink cannot be resolved; the absent-symlink case is not
distinguished from a broken or unreadable symlink — both surface as the same
resolution error, and there is no non-error "not installed" result. -/
theorem c7_installedversion_absent_is_error_amended :
    ∀ (env : IVEnv) (e : FsErr), env.latestResolve = Except.error e →
      installedVersion "" env = IVOutcome.err "failed to retrieve symlinked file" := by
  intro env e h
  simp [installedVersion, h]

/-- Concrete environment in which the `latest` symlink exists but is broken:
its resolution fails with an error other than not-exist. -/
def demoIVEnvBroken : IVEnv :=
  { latestResolve := Except.error FsErr.other,
    rootResolve := Except.ok "/r",
    relResult := Except.error FsErr.other }

/-- Witness for `c7_installedversion_absent_is_error_amended`: a broken
symlink (a non-not-exist resolution failure) yields the same error. -/
theorem c7_installedversion_absent_is_error_amended_witness :
    installedVersion "" demoIVEnvBroken
      = IVOutcome.err "failed to retrieve symlinked file" :=
  c7_installedversion_absent_is_error_amended demoIVEnvBroken FsErr.other rfl

/-- Concrete environment in which the `latest` symlink is absent:
`EvalSymlinks` fails with a not-exist error before the other calls matter. -/
def demoIVEnvAbsent : IVEnv :=
  { latestResolve := Except.error FsErr.notExist,
    rootResolve := Except.ok "/home/u/.local/bin/backplane",
    relResult := Except.error FsErr.other }

/-- Claim C7 counterexample: with the `latest` symlink absent,
`InstalledVersion` returns an error and no "not installed" value — contrary
to the claim that absence yields a distinguished non-error result. -/
theorem c7_installedversion_counterexample :
    installedVersion "" demoIVEnvAbsent = IVOutcome.err "failed to retrieve symlinked file" ∧
    ∀ v, installedVersion "" demoIVEnvAbsent ≠ IVOutcome.ok v := by
  constructor
  · rfl
  · intro v h
    rw [show installedVersion "" demoIVEnvAbsent
      = IVOutcome.err "failed to retrieve symlinked file" from rfl] at h
    exact IVOutcome.noConfusion h

theorem breakAtSlash_none {l : List Char} (h : ∀ c ∈ l, c ≠ '/') :
    breakAtSlash l = none := by
  induction l with
  | nil => rfl
  | cons c cs ih =>
    have hc : c ≠ '/' := h c (List.mem_cons_self c cs)
    have ihh := ih (fun x hx => h x (List.mem_cons_of_mem c hx))
    simp [breakAtSlash, hc, ihh]

theorem breakAtSlash_append {tool : List Char} (rest : List Char)
    (h : ∀ c ∈ tool, c ≠ '/') :
    breakAtSlash (tool ++ '/' :: rest) = some (tool, rest) := by
  induction tool with
  | nil => simp [breakAtSlash]
  | cons c cs ih =>
    have hc : c ≠ '/' := h c (List.mem_cons_self c cs)
    have ihh := ih (fun x hx => h x (List.mem_cons_of_mem c hx))
    simp [breakAtSlash, hc, ihh]

/-- Claim C10: `InstalledVersion` extracts the version as the second
`/`-separated segment of the resolved symlink target relative to the install
root; when the relative path contains no separator (the target sits directly
under the install root) the index access panics instead of returning an
error, and for a relative path `<tool>/<version>/<rest>` the result is
exactly `<version>`. -/
theorem c10_installedversion_segment_and_panic :
    (∀ (env : IVEnv) (lt rt : String) (rel : String),
      env.latestResolve = Except.ok lt → env.rootResolve = Except.ok rt →
      env.relResult = Except.ok rel → (∀ c ∈ rel.data, c ≠ '/') →
      installedVersion "" env = IVOutcome.indexOutOfRange) ∧
    (∀ (env : IVEnv) (lt rt : String) (tool ver rest : String),
      env.latestResolve = Except.ok lt → env.rootResolve = Except.ok rt →
      env.relResult = Except.ok (tool ++ "/" ++ ver ++ "/" ++ rest) →
      (∀ c ∈ tool.data, c ≠ '/') → (∀ c ∈ ver.data, c ≠ '/') →
      installedVersion "" env = IVOutcome.ok ver) := by
  constructor
  · intro env lt rt rel h1 h2 h3 hns
    simp only [installedVersion, h1, h2, h3]
    have hb : breakAtSlash rel.data = none := breakAtSlash_none hns
    simp [splitNSlash, hb]
  · intro env lt rt tool ver rest h1 h2 h3 htool hver
    simp only [installedVersion, h1, h2, h3]
    have hdata : (tool ++ "/" ++ ver ++ "/" ++ rest).data
        = tool.data ++ '/' :: (ver.data ++ '/' :: rest.data) := by
      simp [String.data_append]
    rw [hdata]
    rw [show splitNSlash 3 (tool.data ++ '/' :: (ver.data ++ '/' :: rest.data))
        = tool.data :: splitNSlash 2 (ver.data ++ '/' :: rest.data) by
      simp [splitNSlash, breakAtSlash_append _ htool]]
    rw [show splitNSlash 2 (ver.data ++ '/' :: rest.data)
        = ver.data :: splitNSlash 1 rest.data by
      simp [splitNSlash, breakAtSlash_append _ hver]]
    simp [splitNSlash]

/-- Concrete environment whose relative path has a single segment. -/
def demoIVEnvShallow : IVEnv :=
  { latestResolve := Except.ok "/r/rosa",
    rootResolve := Except.ok "/r",
    relResult := Except.ok "rosa" }

/-- Concrete environment whose relative path is `rosa/v1.2.3/rosa`. -/
def demoIVEnvDeep : IVEnv :=
  { latestResolve := Except.ok "/r/rosa/v1.2.3/rosa",
    rootResolve := Except.ok "/r",
    relResult := Except.ok ("rosa" ++ "/" ++ "v1.2.3" ++ "/" ++ "rosa") }

/-- Witness for `c10_installedversion_segment_and_panic`: both clauses at
concrete relative paths (`rosa` alone panics; `rosa/v1.2.3/rosa` yields
`v1.2.3`). -/
theorem c10_installedversion_segment_and_panic_witness :
    installedVersion "" demoIVEnvShallow = IVOutcome.indexOutOfRange ∧
    installedVersion "" demoIVEnvDeep = IVOutcome.ok "v1.2.3" :=
  ⟨c10_installedversion_segment_and_panic.1 demoIVEnvShallow
      "/r/rosa" "/r" "rosa" rfl rfl rfl (by decide),
   c10_installedversion_segment_and_panic.2 demoIVEnvDeep
      "/r/rosa/v1.2.3/rosa" "/r" "rosa" "v1.2.3" "rosa" rfl rfl rfl (by decide) (by decide)⟩

/-- Embeds `Default.Remove` (pkg/tools/base/default.go): `os.RemoveAll` the
tool's directory tree first (that call succeeds even when the tree is already
absent; `removeAllOk` is its outcome otherwise), then `os.Remove` the
`latest` symlink — which errors when the symlink does not exist, and whose
outcome when it does exist is `removeLinkOk`. -/
def defaultRemove (removeAllOk removeLinkOk : Bool) (fs : FS) :
    Except String Unit × FS :=
  if !removeAllOk then (Except.error "failed to remove toolDir", fs)
  else
    let fs1 : FS := { fs with toolDirExists := false }
    match fs1.latest with
    | none => (Except.error "failed to remove symlinked file", fs1)
    | some _ =>
      if !removeLinkOk then (Except.error "failed to remove symlinked file", fs1)
      else (Except.ok (), { fs1 with latest := none })

/-- Claim C9: `Remove` deletes the tool's directory tree before it unlinks
the symlink and errors whenever the symlink is absent, so the directory is
already gone on that error path (state mutated despite the error, hence not
atomic), and removing the same tool twice errors the second time (hence not
idempotent). -/
theorem c9_remove_not_atomic_not_idempotent :
    (∀ fs, fs.latest = none →
      defaultRemove true true fs
        = (Except.error "failed to remove symlinked file",
           { fs with toolDirExists := false })) ∧
    (∀ fs t, fs.latest = some t →
      defaultRemove true true fs
        = (Except.ok (), { fs with toolDirExists := false, latest := none }) ∧
      (defaultRemove true true { fs with toolDirExists := false, latest := none }).1
        = Except.error "failed to remove symlinked file" ∧
      (defaultRemove true true { fs with toolDirExists := false, latest := none }).2
        = { fs with toolDirExists := false, latest := none }) := by
  constructor
  · intro fs h
    simp [defaultRemove, h]
  · intro fs t h
    refine ⟨?_, ?_, ?_⟩ <;> simp [defaultRemove, h]

/-- Witness for `c9_remove_not_atomic_not_idempotent`: removing the demo
tool once succeeds and removes both the tree and the symlink; removing it
again errors while leaving the already-emptied state in place. -/
theorem c9_remove_not_atomic_not_idempotent_witness :
    defaultRemove true true demoFS
      = (Except.ok (), { demoFS with toolDirExists := false, latest := none }) ∧
    (defaultRemove true true { demoFS with toolDirExists := false, latest := none }).1
      = Except.error "failed to remove symlinked file" :=
  ⟨(c9_remove_not_atomic_not_idempotent.2 demoFS "rosa/v0/rosa_linux_amd64" rfl).1,
   (c9_remove_not_atomic_not_idempotent.2 demoFS "rosa/v0/rosa_linux_amd64" rfl).2.1⟩

end BackplaneTools
